import Mathlib

/-
Verification of the benchmark coordination engine of onosproject/helmet.

Shallow embedding of:
- pkg/benchmark/coordinator.go : the result aggregation in runBenchmark,
  the MaxLatency threshold check in runBenchmarks, WorkerTask.Run and
  tearDown, runWorkers, and the per-worker request dispatch;
- internal/console/context.go : the single-slot result channels behind
  Joiner and Waiter, and the variadic Join.

Machine integers are modelled as Nat, reduced mod 2^32 where the Go code
performs uint32 arithmetic.  time.Duration values are nonnegative
nanosecond counts modelled as Nat (the int64 latency sums stay far below
2^63 for any realistic run, so signed overflow is not modelled).  The
float64 steps of the aggregation loop - math.Max over two
integer-valued durations, and the division of an integer latency sum by
the worker count followed by truncation back to time.Duration - are
modelled as Nat.max and Nat floor division, which agree with the float
computation whenever the nanosecond values are below 2^53.  The
throughput division is modelled exactly over the rationals.
-/

namespace Helmit

/-- A Go channel of element type α: the buffered values in order plus the
closed flag (internal/console/context.go allocates the Fork and Run
result channels as a buffered channel of capacity one). -/
structure Chan (α : Type) where
  buffer : List α
  closed : Bool
deriving DecidableEq

/-- One receive step, Go `<-ch`: a buffered value is delivered first; a
closed empty channel delivers the zero value of the element type
(modelled as the inner `none`); on an open empty channel the receiver
blocks (the outer `none`). -/
def Chan.recv (c : Chan α) : Option (Option α × Chan α) :=
  match c.buffer with
  | x :: rest => some (some x, { c with buffer := rest })
  | [] => if c.closed then some (none, c) else none

/-- State of a Fork (or Run) result channel once the launched function has
returned (context.go, Fork: `defer close(ch); if err := f(context); err
!= nil { ch <- err }`): on error the goroutine buffered the error and
closed the channel; on success it closed the channel without sending. -/
def forkResultChan (outcome : Option α) : Chan α :=
  match outcome with
  | some e => { buffer := [e], closed := true }
  | none => { buffer := [], closed := true }

/-- channelJoiner.Join (context.go): `return <-w.ch`. -/
def channelJoiner.Join (c : Chan α) : Option (Option α × Chan α) :=
  c.recv

/-- channelWaiter.Wait (context.go): `return <-w.ch`, identical to
channelJoiner.Join. -/
def channelWaiter.Wait (c : Chan α) : Option (Option α × Chan α) :=
  c.recv

/-- The loop of the variadic Join (context.go): `for _, joiner := range
joiners { if e := joiner.Join(); e != nil { err = e } }; return err`,
threading the running `err`.  A joiner whose channel would block blocks
the whole join (outer `none`). -/
def JoinLoop (err : Option α) : List (Chan α) → Option (Option α)
  | [] => some err
  | c :: rest =>
    match c.recv with
    | none => none
    | some (e, _) =>
      match e with
      | some x => JoinLoop (some x) rest
      | none => JoinLoop err rest

/-- The variadic Join over a list of joiners (context.go, func Join):
starts the loop with a nil `err`. -/
def Join (joiners : List (Chan α)) : Option (Option α) :=
  JoinLoop none joiners

/-- Specification-side description of Join's combined error: the last
non-nil error among the outcomes, in argument order. -/
def lastError (outcomes : List (Option α)) : Option α :=
  (outcomes.filterMap id).getLast?

/-- The sends performed on a setup fan-out's error channel while the main
goroutine is blocked in wg.Wait(): no receiver runs, so a send succeeds
only by buffering; a sender that finds the buffer full blocks before its
wg.Done(), and wg.Wait() then never returns (`none` = the whole call
deadlocks). -/
def sendAll (cap : Nat) : List α → Chan α → Option (Chan α)
  | [], c => some c
  | e :: rest, c =>
    if c.buffer.length < cap then
      sendAll cap rest { c with buffer := c.buffer ++ [e] }
    else
      none

/-- The fan-out/join pattern of setupWorkers and setupBenchmark
(coordinator.go): dispatch to all workers, each failing worker sends its
error on `errCh`, then `wg.Wait(); close(errCh)` and the range loop
returns the first buffered error, nil when there is none.  `cap` is the
capacity `errCh` was allocated with and `outcomes` lists the per-worker
RPC outcomes in completion order. -/
def fanOutSetup (cap : Nat) (outcomes : List (Option α)) : Option (Option α) :=
  match sendAll cap (outcomes.filterMap id) { buffer := [], closed := false } with
  | none => none
  | some c => some c.buffer.head?

/-- setupWorkers (and the identically structured setupBenchmark) allocate
their error channel as `make(chan error)`: capacity zero. -/
def setupWorkers (outcomes : List (Option α)) : Option (Option α) :=
  fanOutSetup 0 outcomes

/-- The RunBenchmark RPC response (one per worker): the request count is
a uint32, the duration and latencies are time.Duration nanosecond
counts. -/
structure RunResponse where
  Requests : Nat
  Duration : Nat
  Latency : Nat
  Latency50 : Nat
  Latency75 : Nat
  Latency95 : Nat
  Latency99 : Nat
deriving DecidableEq

/-- The aggregated suite-level result (coordinator.go, struct `result`);
the four fixed keys .5/.75/.95/.99 of the latencyPercentiles map are
modelled as four fields. -/
structure result where
  benchmark : String
  requests : Nat
  duration : Nat
  throughput : ℚ
  meanLatency : Nat
  latency50 : Nat
  latency75 : Nat
  latency95 : Nat
  latency99 : Nat
deriving DecidableEq

/-- Accumulator of the aggregation loop over resultCh in runBenchmark. -/
structure AggAcc where
  requests : Nat
  duration : Nat
  latencySum : Nat
  latency50Sum : Nat
  latency75Sum : Nat
  latency95Sum : Nat
  latency99Sum : Nat
deriving DecidableEq

/-- One iteration of the aggregation loop (coordinator.go, `for result :=
range resultCh`): a wrapping uint32 add for the request count, math.Max
for the duration, plain adds for the latency sums. -/
def aggStep (acc : AggAcc) (r : RunResponse) : AggAcc :=
  { requests := (acc.requests + r.Requests) % 2 ^ 32
    duration := max acc.duration r.Duration
    latencySum := acc.latencySum + r.Latency
    latency50Sum := acc.latency50Sum + r.Latency50
    latency75Sum := acc.latency75Sum + r.Latency75
    latency95Sum := acc.latency95Sum + r.Latency95
    latency99Sum := acc.latency99Sum + r.Latency99 }

/-- The aggregation performed by runBenchmark (coordinator.go) once every
worker has replied successfully: fold the responses, then compute the
throughput over ℚ (float64 in the source) and the per-worker means by
truncating division (float64 division then conversion to the integral
time.Duration in the source).  In the success path len(workers) equals
the number of collected responses. -/
def runBenchmark (benchmark : String) (responses : List RunResponse) : result :=
  let acc := responses.foldl aggStep ⟨0, 0, 0, 0, 0, 0, 0⟩
  let workers := responses.length
  { benchmark := benchmark
    requests := acc.requests
    duration := acc.duration
    throughput := (acc.requests : ℚ) / ((acc.duration : ℚ) / 1000000000)
    meanLatency := acc.latencySum / workers
    latency50 := acc.latency50Sum / workers
    latency75 := acc.latency75Sum / workers
    latency95 := acc.latency95Sum / workers
    latency99 := acc.latency99Sum / workers }

/-- The MaxLatency threshold loop at the end of runBenchmarks
(coordinator.go): `for _, result := range results { if t.config.MaxLatency
!= nil && result.meanLatency >= *t.config.MaxLatency { return error } }`. -/
def checkMaxLatency (maxLatency : Option Nat) : List result → Option String
  | [] => none
  | r :: rest =>
    match maxLatency with
    | some m =>
      if r.meanLatency ≥ m then
        some ("mean latency of " ++ toString r.meanLatency ++ " exceeds maximum")
      else checkMaxLatency maxLatency rest
    | none => checkMaxLatency (none : Option Nat) rest

/-- The benchmark loop of runBenchmarks (coordinator.go): benchmarks run
in order, the loop aborts at the first failing benchmark, otherwise the
results are collected in order. -/
def collectBenchResults : List (Except String result) → Except String (List result)
  | [] => .ok []
  | .error e :: _ => .error e
  | .ok r :: rest =>
    match collectBenchResults rest with
    | .error e => .error e
    | .ok rs => .ok (r :: rs)

/-- runBenchmarks (coordinator.go) as a function of its phase outcomes:
setupSuite, then setupWorkers, then the benchmarks in order, then the
MaxLatency threshold check over the collected results. -/
def runBenchmarks (suiteErr workersErr : Option String)
    (benchOutcomes : List (Except String result)) (maxLatency : Option Nat) :
    Option String :=
  match suiteErr with
  | some e => some e
  | none =>
    match workersErr with
    | some e => some e
    | none =>
      match collectBenchResults benchOutcomes with
      | .error e => some e
      | .ok results => checkMaxLatency maxLatency results

/-- The externally visible steps a WorkerTask takes. -/
inductive Action where
  | createNamespace
  | createWorkers
  | runBenchmarks
  | tearDown
deriving DecidableEq

/-- WorkerTask.run (coordinator.go): CreateNamespace, createWorkers and
runBenchmarks in sequence, aborting at the first error; paired with the
trace of the steps attempted. -/
def WorkerTask.run (nsErr workersErr benchErr : Option String) :
    List Action × Option String :=
  match nsErr with
  | some e => ([Action.createNamespace], some e)
  | none =>
    match workersErr with
    | some e => ([Action.createNamespace, Action.createWorkers], some e)
    | none =>
      ([Action.createNamespace, Action.createWorkers, Action.runBenchmarks], benchErr)

/-- WorkerTask.Run (coordinator.go): run the phases; on either outcome
tear down once, discarding tearDown's own error (`_ = t.tearDown()`), and
return status 0 with the phase error, if any.  `tdErr` is the error
tearDown would report; it never reaches the return value. -/
def WorkerTask.Run (nsErr workersErr benchErr tdErr : Option String) :
    List Action × (Int × Option String) :=
  let r := WorkerTask.run nsErr workersErr benchErr
  match r.2 with
  | some e => (r.1 ++ [Action.tearDown], (0, some e))
  | none => (r.1 ++ [Action.tearDown], (0, none))

/-- What runWorkers observes of one finished WorkerTask.Run. -/
structure TaskOutcome where
  status : Int
  error : Option String
deriving DecidableEq

/-- The resolution runWorkers reaches: return an internal error, terminate
the process via os.Exit, or return nil. -/
inductive WorkersResult where
  | internalError (e : String)
  | exitProcess (code : Int)
  | ok
deriving DecidableEq

/-- runWorkers (coordinator.go) over the task outcomes listed in
channel-arrival order: each goroutine sends its task's error to errChan or
its exit status to codeChan (both buffered with capacity len(tasks), so no
send blocks); once all goroutines are done, the first received error, if
any, is returned without inspecting codes; otherwise the first non-zero
code terminates the process; otherwise nil is returned. -/
def taskCodes (outcomes : List TaskOutcome) : List Int :=
  outcomes.filterMap fun o =>
    match o.error with
    | some _ => none
    | none => some o.status

def runWorkers (outcomes : List TaskOutcome) : WorkersResult :=
  match outcomes.filterMap TaskOutcome.error with
  | e :: _ => WorkersResult.internalError e
  | [] =>
    match (taskCodes outcomes).filter (fun c => c ≠ 0) with
    | c :: _ => WorkersResult.exitProcess c
    | [] => WorkersResult.ok

/-- The per-worker request counts dispatched by runBenchmark
(coordinator.go): every one of the `workers` workers receives
`t.config.Iterations/len(workers)` (Go integer division), carried in the
RunRequest as a uint32. -/
def dispatchedRequests (iterations workers : Nat) : List Nat :=
  List.replicate workers (iterations / workers % 2 ^ 32)

/-- Two consecutive Joins on the same result channel, threading the
channel state; the outer `none` means one of the two calls blocked. -/
def joinTwice (c : Chan α) : Option (Option α × Option α) :=
  match channelJoiner.Join c with
  | none => none
  | some (r₁, c₁) =>
    match channelJoiner.Join c₁ with
    | none => none
    | some (r₂, _) => some (r₁, r₂)

/-- The two per-worker responses of the spec's W=2 aggregation scenario
(all durations in nanoseconds). -/
def sampleResponses : List RunResponse :=
  [⟨100, 1000000000, 10000000, 8000000, 12000000, 20000000, 25000000⟩,
   ⟨100, 2000000000, 20000000, 16000000, 24000000, 30000000, 35000000⟩]

/-- The aggregated result of the spec's W=2 scenario. -/
def sampleResult : result :=
  { benchmark := "Get", requests := 200, duration := 2000000000,
    throughput := 100, meanLatency := 15000000, latency50 := 12000000,
    latency75 := 18000000, latency95 := 25000000, latency99 := 30000000 }

end Helmit

namespace Helmit

/-- C2: with W >= 1 workers and a configured total of N iterations
(representable in uint32), every worker in the RunBenchmark fan-out is
dispatched exactly N / W requests (integer division), so the dispatched
counts sum to N - N % W, a shortfall from N of at most W - 1. -/
theorem dispatchedRequests_spec (N W : Nat) (hW : 1 ≤ W) (hN : N < 2 ^ 32) :
    (∀ r ∈ dispatchedRequests N W, r = N / W) ∧
    (dispatchedRequests N W).sum = N - N % W ∧
    N - (dispatchedRequests N W).sum ≤ W - 1 := by
  have hdiv : N / W % 2 ^ 32 = N / W :=
    Nat.mod_eq_of_lt (lt_of_le_of_lt (Nat.div_le_self N W) hN)
  have hsum : (dispatchedRequests N W).sum = W * (N / W) := by
    simp [dispatchedRequests, hdiv, List.sum_replicate, smul_eq_mul]
    exact Or.inl (lt_of_le_of_lt (Nat.div_le_self N W)
      (lt_of_lt_of_le hN (by norm_num)))
  have key : (dispatchedRequests N W).sum + N % W = N := by
    rw [hsum]; exact Nat.div_add_mod N W
  have hmod : N % W < W := Nat.mod_lt N hW
  obtain ⟨s, hs⟩ : ∃ s, (dispatchedRequests N W).sum = s := ⟨_, rfl⟩
  obtain ⟨m, hm⟩ : ∃ m, N % W = m := ⟨_, rfl⟩
  rw [hs, hm] at key
  refine ⟨?_, ?_, ?_⟩
  · intro r hr
    rw [dispatchedRequests, List.mem_replicate] at hr
    exact hr.2.trans hdiv
  · rw [hs, hm]; omega
  · rw [hs]; omega

/-- Witness for C2 at N = 100, W = 3. -/
theorem dispatchedRequests_spec_witness :
    (1 ≤ 3 ∧ 100 < 2 ^ 32) ∧
    ((∀ r ∈ dispatchedRequests 100 3, r = 100 / 3) ∧
      (dispatchedRequests 100 3).sum = 100 - 100 % 3 ∧
      100 - (dispatchedRequests 100 3).sum ≤ 3 - 1) :=
  ⟨⟨by decide, by decide⟩, dispatchedRequests_spec 100 3 (by decide) (by decide)⟩

/-- C4: on every control path of WorkerTask.Run - whatever the outcomes
of namespace creation, worker creation, the benchmarks and teardown
itself - the trace contains the tearDown action exactly once: teardown is
never skipped and never invoked twice. -/
theorem Run_tearDown_once (nsErr workersErr benchErr tdErr : Option String) :
    (WorkerTask.Run nsErr workersErr benchErr tdErr).1.count Action.tearDown = 1 := by
  cases nsErr <;> cases workersErr <;> cases benchErr <;>
    simp [WorkerTask.Run, WorkerTask.run]

/-- C10: WorkerTask.Run always reports integer status 0; its error
component is exactly the phase error of WorkerTask.run, so the teardown
error is discarded on both paths, and a fully successful run reports
(0, nil) even when teardown fails. -/
theorem Run_status_always_zero (nsErr workersErr benchErr tdErr : Option String) :
    (WorkerTask.Run nsErr workersErr benchErr tdErr).2.1 = 0 ∧
    (WorkerTask.Run nsErr workersErr benchErr tdErr).2.2 =
      (WorkerTask.run nsErr workersErr benchErr).2 ∧
    ((WorkerTask.run nsErr workersErr benchErr).2 = none →
      (WorkerTask.Run nsErr workersErr benchErr tdErr).2 = (0, none)) := by
  cases nsErr <;> cases workersErr <;> cases benchErr <;>
    simp [WorkerTask.Run, WorkerTask.run]

/-- Witness for C10: a run whose phases all succeed reports (0, nil)
even though teardown fails. -/
theorem Run_status_always_zero_witness :
    (WorkerTask.run none none none).2 = none ∧
    (WorkerTask.Run none none none (some "teardown failed")).2 = (0, none) :=
  ⟨rfl, (Run_status_always_zero none none none (some "teardown failed")).2.2 rfl⟩

/-- C6: the setupWorkers/setupBenchmark fan-out returns nil when every
worker call succeeds, but with the capacity-zero error channel of the
source a single failing call deadlocks (the sender blocks before
wg.Done(), so wg.Wait() never returns); with a buffered channel sized to
the worker count - the pattern used by runBenchmark and the evident
intent - the first observed error would be returned. -/
theorem setupWorkers_error_deadlocks :
    setupWorkers ([none] : List (Option String)) = some none ∧
    setupWorkers ([some "rpc error"] : List (Option String)) = none ∧
    fanOutSetup 1 ([some "rpc error"] : List (Option String)) =
      some (some "rpc error") :=
  ⟨rfl, rfl, rfl⟩

/-- Each additive accumulator component of the aggregation fold collects
the sum of the corresponding response field. -/
theorem foldl_aggStep_sum (proj : AggAcc → Nat) (f : RunResponse → Nat)
    (hstep : ∀ acc r, proj (aggStep acc r) = proj acc + f r)
    (rs : List RunResponse) (a : AggAcc) :
    proj (rs.foldl aggStep a) = proj a + (rs.map f).sum := by
  induction rs generalizing a with
  | nil => simp
  | cons r rest ih =>
    rw [List.foldl_cons, ih (aggStep a r), hstep, List.map_cons, List.sum_cons]
    omega

/-- The wrapping uint32 request accumulator collects the request sum
modulo 2^32. -/
theorem foldl_aggStep_requests (rs : List RunResponse) (a : AggAcc)
    (ha : a.requests < 2 ^ 32) :
    (rs.foldl aggStep a).requests =
      (a.requests + (rs.map RunResponse.Requests).sum) % 2 ^ 32 := by
  induction rs generalizing a with
  | nil =>
    rw [List.foldl_nil, List.map_nil, List.sum_nil, Nat.add_zero,
      Nat.mod_eq_of_lt ha]
  | cons r rest ih =>
    rw [List.foldl_cons, ih (aggStep a r) (Nat.mod_lt _ (by norm_num)),
      show (aggStep a r).requests = (a.requests + r.Requests) % 2 ^ 32 from rfl,
      Nat.mod_add_mod, List.map_cons, List.sum_cons, Nat.add_assoc]

/-- The duration accumulator dominates the initial value and every
response's duration. -/
theorem foldl_aggStep_duration_le (rs : List RunResponse) (a : AggAcc) :
    a.duration ≤ (rs.foldl aggStep a).duration ∧
    ∀ r ∈ rs, r.Duration ≤ (rs.foldl aggStep a).duration := by
  induction rs generalizing a with
  | nil => simp
  | cons r rest ih =>
    rw [List.foldl_cons]
    obtain ⟨h1, h2⟩ := ih (aggStep a r)
    refine ⟨le_trans (le_max_left _ _) h1, ?_⟩
    intro r' hr'
    rcases List.mem_cons.mp hr' with h | h
    · rw [h]; exact le_trans (le_max_right _ _) h1
    · exact h2 r' h

/-- The duration accumulator ends at the initial value or at one of the
responses' durations. -/
theorem foldl_aggStep_duration_mem (rs : List RunResponse) (a : AggAcc) :
    (rs.foldl aggStep a).duration = a.duration ∨
    (rs.foldl aggStep a).duration ∈ rs.map RunResponse.Duration := by
  induction rs generalizing a with
  | nil => simp
  | cons r rest ih =>
    rw [List.foldl_cons, List.map_cons]
    rcases ih (aggStep a r) with h | h
    · rw [h]
      rcases max_choice a.duration r.Duration with hm | hm
      · exact Or.inl hm
      · exact Or.inr (by
          rw [show (aggStep a r).duration = max a.duration r.Duration from rfl, hm]
          exact List.mem_cons_self _ _)
    · exact Or.inr (List.mem_cons_of_mem _ h)

/-- C1: for every benchmark and every list of at least one per-worker
response whose request counts sum below 2^32, the aggregated result has
total requests equal to the sum of the workers' request counts, duration
equal to the maximum of the workers' durations (it dominates each one
and is attained by one of them), throughput equal to total requests
divided by the duration in seconds, and mean latency and each percentile
latency equal to the arithmetic mean (integral, truncated as
time.Duration is an integer nanosecond count) across workers of the
corresponding per-worker value; the spec's W=2 scenario evaluates to
requests 200, duration 2s, throughput 100/s, mean 15ms, p50 12ms,
p75 18ms, p95 25ms, p99 30ms. -/
theorem runBenchmark_aggregation (b : String) (rs : List RunResponse)
    (hW : 1 ≤ rs.length)
    (hreq : (rs.map RunResponse.Requests).sum < 2 ^ 32) :
    (runBenchmark b rs).requests = (rs.map RunResponse.Requests).sum ∧
    ((∀ r ∈ rs, r.Duration ≤ (runBenchmark b rs).duration) ∧
      (runBenchmark b rs).duration ∈ rs.map RunResponse.Duration) ∧
    (runBenchmark b rs).throughput =
      ((runBenchmark b rs).requests : ℚ) * 1000000000 /
        ((runBenchmark b rs).duration : ℚ) ∧
    (runBenchmark b rs).meanLatency = (rs.map RunResponse.Latency).sum / rs.length ∧
    (runBenchmark b rs).latency50 = (rs.map RunResponse.Latency50).sum / rs.length ∧
    (runBenchmark b rs).latency75 = (rs.map RunResponse.Latency75).sum / rs.length ∧
    (runBenchmark b rs).latency95 = (rs.map RunResponse.Latency95).sum / rs.length ∧
    (runBenchmark b rs).latency99 = (rs.map RunResponse.Latency99).sum / rs.length ∧
    runBenchmark "Get" sampleResponses = sampleResult := by
  have hreqeq : (runBenchmark b rs).requests = (rs.map RunResponse.Requests).sum := by
    rw [show (runBenchmark b rs).requests =
        (rs.foldl aggStep ⟨0, 0, 0, 0, 0, 0, 0⟩).requests from rfl,
      foldl_aggStep_requests rs ⟨0, 0, 0, 0, 0, 0, 0⟩ (by norm_num),
      Nat.zero_add, Nat.mod_eq_of_lt hreq]
  have hdurfold : (runBenchmark b rs).duration =
      (rs.foldl aggStep ⟨0, 0, 0, 0, 0, 0, 0⟩).duration := rfl
  have hdurle := foldl_aggStep_duration_le rs ⟨0, 0, 0, 0, 0, 0, 0⟩
  refine ⟨hreqeq, ⟨?_, ?_⟩, ?_, ?_, ?_, ?_, ?_, ?_, ?_⟩
  · intro r hr
    rw [hdurfold]
    exact hdurle.2 r hr
  · rcases foldl_aggStep_duration_mem rs ⟨0, 0, 0, 0, 0, 0, 0⟩ with h | h
    · cases rs with
      | nil => simp at hW
      | cons r rest =>
        rw [hdurfold, h]
        have : r.Duration = 0 := by
          have h2 := (foldl_aggStep_duration_le (r :: rest)
            ⟨0, 0, 0, 0, 0, 0, 0⟩).2 r (List.mem_cons_self _ _)
          rw [h] at h2
          simpa using h2
        rw [List.map_cons, ← this]
        exact List.mem_cons_self _ _
    · rw [hdurfold]; exact h
  · rw [show (runBenchmark b rs).throughput =
        ((runBenchmark b rs).requests : ℚ) /
          (((runBenchmark b rs).duration : ℚ) / 1000000000) from rfl,
      div_div_eq_mul_div]
  · rw [show (runBenchmark b rs).meanLatency =
        (rs.foldl aggStep ⟨0, 0, 0, 0, 0, 0, 0⟩).latencySum / rs.length from rfl,
      foldl_aggStep_sum AggAcc.latencySum RunResponse.Latency
        (fun acc r => rfl) rs ⟨0, 0, 0, 0, 0, 0, 0⟩]
    simp
  · rw [show (runBenchmark b rs).latency50 =
        (rs.foldl aggStep ⟨0, 0, 0, 0, 0, 0, 0⟩).latency50Sum / rs.length from rfl,
      foldl_aggStep_sum AggAcc.latency50Sum RunResponse.Latency50
        (fun acc r => rfl) rs ⟨0, 0, 0, 0, 0, 0, 0⟩]
    simp
  · rw [show (runBenchmark b rs).latency75 =
        (rs.foldl aggStep ⟨0, 0, 0, 0, 0, 0, 0⟩).latency75Sum / rs.length from rfl,
      foldl_aggStep_sum AggAcc.latency75Sum RunResponse.Latency75
        (fun acc r => rfl) rs ⟨0, 0, 0, 0, 0, 0, 0⟩]
    simp
  · rw [show (runBenchmark b rs).latency95 =
        (rs.foldl aggStep ⟨0, 0, 0, 0, 0, 0, 0⟩).latency95Sum / rs.length from rfl,
      foldl_aggStep_sum AggAcc.latency95Sum RunResponse.Latency95
        (fun acc r => rfl) rs ⟨0, 0, 0, 0, 0, 0, 0⟩]
    simp
  · rw [show (runBenchmark b rs).latency99 =
        (rs.foldl aggStep ⟨0, 0, 0, 0, 0, 0, 0⟩).latency99Sum / rs.length from rfl,
      foldl_aggStep_sum AggAcc.latency99Sum RunResponse.Latency99
        (fun acc r => rfl) rs ⟨0, 0, 0, 0, 0, 0, 0⟩]
    simp
  · rw [sampleResult]
    simp only [runBenchmark, sampleResponses, aggStep, List.foldl_cons,
      List.foldl_nil, List.length_cons, List.length_nil]
    norm_num

/-- Witness for C1 at the spec's two-worker scenario. -/
theorem runBenchmark_aggregation_witness :
    (1 ≤ sampleResponses.length ∧
      (sampleResponses.map RunResponse.Requests).sum < 2 ^ 32) ∧
    (runBenchmark "Get" sampleResponses).requests =
      (sampleResponses.map RunResponse.Requests).sum ∧
    runBenchmark "Get" sampleResponses = sampleResult :=
  ⟨⟨by decide, by decide⟩,
    (runBenchmark_aggregation "Get" sampleResponses (by decide) (by decide)).1,
    (runBenchmark_aggregation "Get" sampleResponses (by decide) (by decide)).2.2.2.2.2.2.2.2⟩

/-- One aggregation step commutes with itself on the right: folding two
responses in either order yields the same accumulator. -/
theorem aggStep_right_comm (z : AggAcc) (x y : RunResponse) :
    aggStep (aggStep z x) y = aggStep (aggStep z y) x := by
  simp only [aggStep, AggAcc.mk.injEq]
  refine ⟨?_, ?_, ?_, ?_, ?_, ?_, ?_⟩
  · rw [Nat.mod_add_mod, Nat.mod_add_mod, Nat.add_right_comm]
  · rw [max_assoc, max_comm x.Duration y.Duration, ← max_assoc]
  · exact Nat.add_right_comm _ _ _
  · exact Nat.add_right_comm _ _ _
  · exact Nat.add_right_comm _ _ _
  · exact Nat.add_right_comm _ _ _
  · exact Nat.add_right_comm _ _ _

/-- C9: the aggregation of per-worker responses into a suite-level
result is invariant under permutation of the response list: every field
of the aggregated result, throughput and percentiles included, is the
same for any reordering of the workers. -/
theorem runBenchmark_perm_invariant (b : String) (rs₁ rs₂ : List RunResponse)
    (hperm : rs₁.Perm rs₂) :
    runBenchmark b rs₁ = runBenchmark b rs₂ := by
  have hfold : rs₁.foldl aggStep ⟨0, 0, 0, 0, 0, 0, 0⟩ =
      rs₂.foldl aggStep ⟨0, 0, 0, 0, 0, 0, 0⟩ :=
    hperm.foldl_eq' (fun x _ y _ z => aggStep_right_comm z x y) _
  rw [runBenchmark, runBenchmark, hfold, hperm.length_eq]

/-- Witness for C9: swapping the two workers of the spec scenario leaves
the aggregated result unchanged. -/
theorem runBenchmark_perm_invariant_witness :
    sampleResponses.Perm sampleResponses.reverse ∧
    runBenchmark "Get" sampleResponses =
      runBenchmark "Get" sampleResponses.reverse :=
  ⟨(List.reverse_perm sampleResponses).symm,
    runBenchmark_perm_invariant "Get" sampleResponses sampleResponses.reverse
      (List.reverse_perm sampleResponses).symm⟩

/-- The threshold loop returns nil exactly when no collected result's
mean latency meets the configured maximum. -/
theorem checkMaxLatency_eq_none_iff (maxLatency : Option Nat) (results : List result) :
    checkMaxLatency maxLatency results = none ↔
      ∀ m, maxLatency = some m → ∀ r ∈ results, r.meanLatency < m := by
  induction results with
  | nil => simp [checkMaxLatency]
  | cons r rest ih =>
    cases maxLatency with
    | none => simpa [checkMaxLatency] using ih
    | some m =>
      by_cases h : m ≤ r.meanLatency
      · simp only [checkMaxLatency, if_pos h]
        constructor
        · intro hcontra; exact absurd hcontra (by simp)
        · intro hall
          exact absurd (hall m rfl r (List.mem_cons_self r rest)) (not_lt.mpr h)
      · simp only [checkMaxLatency, if_neg h]
        rw [ih]
        constructor
        · intro hall m' hm' r' hr'
          rcases List.mem_cons.mp hr' with h1 | h1
          · cases hm'; rw [h1]; exact not_le.mp h
          · exact hall m' hm' r' h1
        · intro hall m' hm' r' hr'
          exact hall m' hm' r' (List.mem_cons_of_mem r hr')

/-- C3: when setupSuite, setupWorkers and every benchmark RPC succeed,
runBenchmarks returns nil exactly when no aggregated mean latency meets
the configured MaxLatency (in particular when MaxLatency is not
configured); when some result's mean latency meets or exceeds the
configured MaxLatency it returns a threshold-violation error even though
every RPC succeeded. -/
theorem runBenchmarks_threshold (benchOutcomes : List (Except String result))
    (results : List result) (maxLatency : Option Nat)
    (hok : collectBenchResults benchOutcomes = Except.ok results) :
    runBenchmarks none none benchOutcomes maxLatency = none ↔
      ∀ m, maxLatency = some m → ∀ r ∈ results, r.meanLatency < m := by
  rw [show runBenchmarks none none benchOutcomes maxLatency =
      checkMaxLatency maxLatency results by rw [runBenchmarks, hok]]
  exact checkMaxLatency_eq_none_iff maxLatency results

/-- Witness for C3: MaxLatency 10ms with an aggregated mean of 15ms
fails with a threshold violation; no configured maximum passes. -/
theorem runBenchmarks_threshold_witness :
    collectBenchResults [Except.ok sampleResult] = Except.ok [sampleResult] ∧
    runBenchmarks none none [Except.ok sampleResult] (some 10000000) ≠ none ∧
    runBenchmarks none none [Except.ok sampleResult] none = none := by
  refine ⟨rfl, ?_, ?_⟩
  · intro h
    have := (runBenchmarks_threshold [Except.ok sampleResult] [sampleResult]
      (some 10000000) rfl).mp h 10000000 rfl sampleResult (List.mem_cons_self _ _)
    revert this
    decide
  · exact (runBenchmarks_threshold [Except.ok sampleResult] [sampleResult]
      none rfl).mpr (by intro m hm; cases hm)

/-- C5: runWorkers waits for every task and resolves a single outcome: if
any task reported an internal error it propagates the first such error
without inspecting exit statuses; otherwise, the first non-zero reported
status terminates the process with that status; otherwise it resolves to
nil.  In particular, with task A reporting status 0 and task B status 2,
the process terminates with exit code 2. -/
theorem runWorkers_eq_internalError (outcomes : List TaskOutcome) (e : String)
    (t : List String) (herrs : outcomes.filterMap TaskOutcome.error = e :: t) :
    runWorkers outcomes = WorkersResult.internalError e := by
  unfold runWorkers
  rw [herrs]

theorem runWorkers_eq_exitProcess (outcomes : List TaskOutcome) (c : Int)
    (t : List Int) (herrs : outcomes.filterMap TaskOutcome.error = [])
    (hfilter : (taskCodes outcomes).filter (fun c => c ≠ 0) = c :: t) :
    runWorkers outcomes = WorkersResult.exitProcess c := by
  unfold runWorkers
  rw [herrs, hfilter]

theorem runWorkers_eq_ok (outcomes : List TaskOutcome)
    (herrs : outcomes.filterMap TaskOutcome.error = [])
    (hfilter : (taskCodes outcomes).filter (fun c => c ≠ 0) = []) :
    runWorkers outcomes = WorkersResult.ok := by
  unfold runWorkers
  rw [herrs, hfilter]

theorem runWorkers_resolution (outcomes : List TaskOutcome) :
    ((∃ o ∈ outcomes, o.error.isSome) →
      ∃ e, runWorkers outcomes = WorkersResult.internalError e ∧
        (outcomes.filterMap TaskOutcome.error).head? = some e) ∧
    ((∀ o ∈ outcomes, o.error = none) →
      ((∃ o ∈ outcomes, o.status ≠ 0) →
        ∃ c, runWorkers outcomes = WorkersResult.exitProcess c ∧ c ≠ 0 ∧
          ∃ o ∈ outcomes, o.status = c) ∧
      ((∀ o ∈ outcomes, o.status = 0) → runWorkers outcomes = WorkersResult.ok)) ∧
    runWorkers [⟨0, none⟩, ⟨2, none⟩] = WorkersResult.exitProcess 2 := by
  refine ⟨?_, ?_, rfl⟩
  · rintro ⟨o, ho, hoe⟩
    have hne : outcomes.filterMap TaskOutcome.error ≠ [] := by
      intro h
      rw [List.filterMap_eq_nil_iff] at h
      rw [h o ho] at hoe
      simp at hoe
    cases herrs : outcomes.filterMap TaskOutcome.error with
    | nil => exact absurd herrs hne
    | cons e t =>
      exact ⟨e, runWorkers_eq_internalError outcomes e t herrs, rfl⟩
  · intro hnone
    have herrs : outcomes.filterMap TaskOutcome.error = [] :=
      List.filterMap_eq_nil_iff.mpr hnone
    have hcodes : ∀ c, c ∈ taskCodes outcomes → ∃ o ∈ outcomes, o.status = c := by
      intro c hc
      obtain ⟨o, ho, hfo⟩ := List.mem_filterMap.mp hc
      refine ⟨o, ho, ?_⟩
      rw [hnone o ho] at hfo
      exact Option.some_inj.mp hfo
    constructor
    · rintro ⟨o, ho, hos⟩
      have hmem : o.status ∈ taskCodes outcomes :=
        List.mem_filterMap.mpr ⟨o, ho, by rw [hnone o ho]⟩
      have hfmem : o.status ∈ (taskCodes outcomes).filter (fun c => c ≠ 0) :=
        List.mem_filter.mpr ⟨hmem, by simpa using hos⟩
      cases hfilter : (taskCodes outcomes).filter (fun c => c ≠ 0) with
      | nil => rw [hfilter] at hfmem; exact absurd hfmem (List.not_mem_nil _)
      | cons c t =>
        have hcmem : c ∈ (taskCodes outcomes).filter (fun c => c ≠ 0) := by
          rw [hfilter]; exact List.mem_cons_self c t
        refine ⟨c, runWorkers_eq_exitProcess outcomes c t herrs hfilter, ?_, ?_⟩
        · simpa using (List.mem_filter.mp hcmem).2
        · exact hcodes c (List.mem_filter.mp hcmem).1
    · intro hzero
      have hfilter : (taskCodes outcomes).filter (fun c => c ≠ 0) = [] := by
        rw [List.filter_eq_nil_iff]
        intro c hc
        obtain ⟨o, ho, hoc⟩ := hcodes c hc
        simp [← hoc, hzero o ho]
      exact runWorkers_eq_ok outcomes herrs hfilter

/-- Witness for C5: a single task with an internal error resolves to that
error. -/
theorem runWorkers_resolution_witness :
    ∃ e, runWorkers [⟨0, some "boom"⟩] = WorkersResult.internalError e ∧
      (([⟨0, some "boom"⟩] : List TaskOutcome).filterMap TaskOutcome.error).head? =
        some e :=
  (runWorkers_resolution [⟨0, some "boom"⟩]).1
    ⟨⟨0, some "boom"⟩, List.mem_cons_self _ _, rfl⟩

/-- Last element of a cons as an Option.or of the tail's last element. -/
theorem getLast?_cons_or (x : α) (L : List α) :
    (x :: L).getLast? = L.getLast?.or (some x) := by
  induction L generalizing x with
  | nil => rfl
  | cons y M ih =>
    rw [List.getLast?_cons_cons, ih y, Option.or_assoc]
    rfl

/-- The variadic Join loop over resolved Fork result channels delivers
the last non-nil outcome, falling back to the accumulated error. -/
theorem JoinLoop_forkResultChan (outcomes : List (Option α)) (err : Option α) :
    JoinLoop err (outcomes.map forkResultChan) =
      some ((outcomes.filterMap id).getLast?.or err) := by
  induction outcomes generalizing err with
  | nil => rfl
  | cons o os ih =>
    cases o with
    | none =>
      rw [List.map_cons, List.filterMap_cons_none (rfl : id (none : Option α) = none)]
      exact ih err
    | some x =>
      rw [List.map_cons, List.filterMap_cons_some (rfl : id (some x) = some x),
        getLast?_cons_or, Option.or_assoc]
      exact ih (some x)

/-- C7: over any finite list of resolved joiners, the variadic Join
resolves (it blocks only while some joiner is unresolved) and returns the
last non-nil error in argument order, nil when all succeeded; an
individual Join on one resolved joiner returns that task's own outcome.
In particular, with tasks 1 and 3 failing and task 2 succeeding, Join
returns the non-nil error of task 3. -/
theorem Join_spec (outcomes : List (Option String)) :
    Join (outcomes.map forkResultChan) = some (lastError outcomes) ∧
    (∀ o : Option String, channelJoiner.Join (forkResultChan o) =
      some (o, { buffer := [], closed := true })) ∧
    Join [({ buffer := [], closed := false } : Chan String)] = none ∧
    Join ([some "e1", none, some "e3"].map forkResultChan) = some (some "e3") := by
  refine ⟨?_, ?_, rfl, rfl⟩
  · rw [Join, JoinLoop_forkResultChan, Option.or_none]
    rfl
  · intro o
    cases o <;> rfl

/-- C8 counterexample: after the launched task fails with "boom", the
first Join on the single-slot channel delivers the error, but a second
Join delivers nil - not the same already-delivered result. -/
theorem joinTwice_error_not_repeated :
    joinTwice (forkResultChan (some "boom")) = some (some "boom", none) ∧
    (some "boom" : Option String) ≠ none :=
  ⟨rfl, by simp⟩

/-- C8 amended: a second Wait (identical to Join) after the first call
returned is safe - it returns instead of blocking - and always delivers
nil; that equals the first call's result in the success case, while after
an error the first call delivers the error and the second delivers nil. -/
theorem joinTwice_amended (o : Option String) :
    (∀ c : Chan String, channelWaiter.Wait c = channelJoiner.Join c) ∧
    joinTwice (forkResultChan o) = some (o, none) := by
  cases o <;>
    exact ⟨fun c => rfl, rfl⟩

end Helmit
